import Mathlib

/-!
A verification development for the agent core of the `cognitive-os` backend:
the retry/iteration policy (`app/agent/policy.py`), the arbitration layer
(`app/agent/arbiter.py`), the tool execution boundary (`app/tools/executor.py`)
and the iterative control loop (`app/agent/loop_v2.py`) are shallowly embedded
as executable Lean definitions, and the behavioural properties claimed of them
are proved or refuted below.

Modelling conventions:
- Python `int` is `ℤ`, Python `float` is `ℚ` (all float arithmetic performed by
  the embedded code is exact at these magnitudes), Python `str` is `String`,
  `Optional[T]` is `Option T`, `Dict[str, int]` is a first-occurrence
  association list.
- Python string methods `.strip()` and `.lower()` are modelled by `pyStrip` and
  `pyLower` over the character list (kernel-computable, unlike `String.trim`).
- Exceptions are modelled with `Except`: a Python call that may raise returns
  `Except PyExc α`, and a `try/except` block is a `match` on that value.
- Wall-clock readings (`time.perf_counter`) and the two external collaborators
  of the loop (the planner adapter and the tool executor, both opaque to the
  loop) are oracles supplied in a `LoopEnv`; `uuid` trace ids do not influence
  any verified behaviour and are omitted.
-/

namespace CognitiveOS

/-- Model of Python `str.lower()` (ASCII-faithful). -/
def pyLower (s : String) : String :=
  ⟨s.data.map Char.toLower⟩

/-- Model of Python `str.strip()`: drop leading and trailing whitespace. -/
def pyStrip (s : String) : String :=
  ⟨((s.data.dropWhile Char.isWhitespace).reverse.dropWhile Char.isWhitespace).reverse⟩

/-- Model of Python `str(x or "")` for an optional string `x`: `None` becomes
the empty string, and `some s` yields `s` (for `s = ""` the `or` also yields
`""`, which is `s` itself). -/
def strOrEmpty : Option String → String
  | none => ""
  | some s => s

/-- Python `dict.get(k, d)` on a `Dict[str, int]` association list (first
occurrence wins, as keys are unique in a Python dict). -/
def dictGet (m : List (String × ℤ)) (k : String) (d : ℤ) : ℤ :=
  match m.find? (fun p => p.1 == k) with
  | none => d
  | some p => p.2

/-- Python `dict[k] = v`: update the first binding of `k`, or append a new
binding when `k` is absent. -/
def dictSet : List (String × ℤ) → String → ℤ → List (String × ℤ)
  | [], k, v => [(k, v)]
  | p :: rest, k, v => if p.1 = k then (k, v) :: rest else p :: dictSet rest k v

/-- Sum of the values of a `Dict[str, int]`, Python `sum(m.values())`. -/
def dictValuesSum (m : List (String × ℤ)) : ℤ :=
  (m.map (fun p => p.2)).sum

/- ----------------------------------------------------------------------
app/agent/policy.py
---------------------------------------------------------------------- -/

/-- `RetryPolicy` dataclass of `app/agent/policy.py`. -/
structure RetryPolicy where
  max_total_retries : ℤ := 3
  max_retries_per_tool : ℤ := 2
  backoff_base_ms : ℤ := 150
deriving Repr, DecidableEq

/-- `AgentPolicy` dataclass of `app/agent/policy.py`. The default
`min_confidence_to_finalize` is the Python float `0.45`. -/
structure AgentPolicy where
  max_iterations_default : ℤ := 6
  max_iterations_cap : ℤ := 20
  min_confidence_to_finalize : ℚ := 0.45
  retry : RetryPolicy := {}
deriving Repr, DecidableEq

/-- `clamp_iterations` of `app/agent/policy.py`. -/
def clamp_iterations (value : ℤ) (policy : AgentPolicy) : ℤ :=
  if value < 1 then 1
  else if value > policy.max_iterations_cap then policy.max_iterations_cap
  else value

/-- `RetryState` of `app/agent/policy.py`: per-run mutable counters, embedded
as an immutable record threaded through the loop. Freshly constructed with
`total_retries = 0` and an empty `per_tool` dict. -/
structure RetryState where
  total_retries : ℤ := 0
  per_tool : List (String × ℤ) := []
deriving Repr, DecidableEq

/-- `RetryState.can_retry`. The Python guard `if not tool_name:` is truthy
falsehood: it permits both `None` and the empty string. -/
def RetryState.can_retry (st : RetryState) (tool_name : Option String)
    (policy : AgentPolicy) : Bool :=
  if st.total_retries ≥ policy.retry.max_total_retries then false
  else
    match tool_name with
    | none => true
    | some s =>
      if s = "" then true
      else dictGet st.per_tool s 0 < policy.retry.max_retries_per_tool

/-- `RetryState.mark_retry`: increments `total_retries` unconditionally and the
per-tool counter only for a truthy (non-`None`, non-empty) tool name. -/
def RetryState.mark_retry (st : RetryState) (tool_name : Option String) :
    RetryState :=
  let st' : RetryState := { st with total_retries := st.total_retries + 1 }
  match tool_name with
  | none => st'
  | some s =>
    if s = "" then st'
    else { st' with per_tool := dictSet st'.per_tool s (dictGet st'.per_tool s 0 + 1) }

/- ----------------------------------------------------------------------
app/agent/arbiter.py
---------------------------------------------------------------------- -/

/-- The raw `function_call` value found in a planner proposal dict: it may be
missing (Python `None` after `.get`), present but not a dict, or a dict whose
`name` key stringifies to `name` (missing key gives `""`) and whose
`arguments` key (after `or {}`) gives `arguments`. -/
inductive PyFC where
  | missing
  | notDict
  | dict (name : String) (arguments : List (String × String))
deriving Repr, DecidableEq

/-- Python `str(fc.get("name", "")).strip()` preimage: the raw name of a
`function_call` value before stripping (`""` when it is not a dict). -/
def PyFC.rawName : PyFC → String
  | .dict n _ => n
  | _ => ""

/-- Python `fc.get("arguments", {}) or {}`. -/
def PyFC.argumentsOrEmpty : PyFC → List (String × String)
  | .dict _ a => a
  | _ => []

/-- The Python guard `isinstance(function_call, dict) and
str(function_call.get("name", "")).strip()`. -/
def PyFC.hasValidName : PyFC → Bool
  | .dict n _ => !(pyStrip n == "")
  | _ => false

/-- A planner proposal after the field extraction performed at the top of
`HybridArbiter.decide`: `action = str(d.get("action", "reflect"))` (raw, not
yet normalized), `thought = str(d.get("thought", ""))`,
`confidence = float(d.get("confidence", 0.0))`,
`function_call = d.get("function_call")`, `final_text = d.get("final_text")`.
The defaults are those produced by an empty dict. -/
structure PlannerStep where
  action : String := "reflect"
  thought : String := ""
  confidence : ℚ := 0
  function_call : PyFC := .missing
  final_text : Option String := none
deriving Repr, DecidableEq

/-- `ArbitrationDecision` frozen dataclass of `app/agent/arbiter.py`. -/
structure ArbitrationDecision where
  action : String
  thought : String
  confidence : ℚ
  function_call : PyFC := .missing
  final_text : Option String := none
  reason : Option String := none
deriving Repr, DecidableEq

/-- `HybridArbiter.decide` of `app/agent/arbiter.py`. The sequential
early-return `if` blocks of the Python body are linearized into one
`if`-chain; each condition is exactly the guard under which the corresponding
`return` executes. -/
def HybridArbiter.decide (planner_step : PlannerStep) (allow_tools : Bool)
    (min_confidence_to_finalize : ℚ) (has_tool_result : Bool) :
    ArbitrationDecision :=
  let action := pyLower (pyStrip planner_step.action)
  let thought := planner_step.thought
  let confidence := planner_step.confidence
  let function_call := planner_step.function_call
  let final_text := planner_step.final_text
  if ¬(action = "tool" ∨ action = "reflect" ∨ action = "retry" ∨ action = "final") then
    { action := "reflect"
      thought := "Invalid planner action normalized to reflect."
      confidence := 0
      reason := some "invalid_action" }
  else if action = "tool" ∧ allow_tools = false then
    { action := "reflect"
      thought := "Tools are disabled by request."
      confidence := max (confidence - 0.2) 0
      reason := some "tools_disabled" }
  else if action = "tool" ∧ function_call.hasValidName = false then
    { action := "reflect"
      thought := "Invalid function_call payload."
      confidence := max (confidence - 0.2) 0
      reason := some "invalid_function_call" }
  else if action = "final" ∧ pyStrip (strOrEmpty final_text) = "" then
    { action := "reflect"
      thought := "Finalization blocked: empty final_text."
      confidence := max (confidence - 0.2) 0
      reason := some "empty_final_text" }
  else if action = "final" ∧ confidence < min_confidence_to_finalize ∧
      has_tool_result = false then
    { action := "reflect"
      thought := "Finalization blocked: low confidence without evidence."
      confidence := confidence
      reason := some "low_confidence_finalize" }
  else
    { action := action
      thought := thought
      confidence := confidence
      function_call := if action = "tool" then function_call else .missing
      final_text := if action = "final" then final_text else none
      reason := none }

/- ----------------------------------------------------------------------
app/tools/base.py, app/tools/registry.py, app/tools/executor.py
---------------------------------------------------------------------- -/

/-- The exceptions that can escape the body of the `try` block in
`ToolExecutor.execute`: `KeyError` (raised by `ToolRegistry.require`),
`ToolExecutionError` (`app/tools/base.py`, raised by the whitelist check and
by `BaseTool.validate_input`), and any other `Exception` carrying its
`str(exc)` rendering. -/
inductive PyExc where
  | keyError (msg : String)
  | toolExecutionError (msg : String)
  | otherExc (msg : String)
deriving Repr, DecidableEq

/-- Python `str(exc)`. For `KeyError` this is the `repr` of its argument,
which wraps the message in quotes (quote-selection subtleties of Python
`repr` are immaterial and are modelled with plain double quotes). -/
def PyExc.toText : PyExc → String
  | .keyError m => "\x22" ++ m ++ "\x22"
  | .toolExecutionError m => m
  | .otherExc m => m

/-- `ToolOutput` model of `app/tools/base.py` (pydantic): `ok`, `data`,
optional `error`. `data : Dict[str, Any]` is modelled as a string-keyed
association list with opaque stringified values. -/
structure ToolOutput where
  ok : Bool := true
  data : List (String × String) := []
  error : Option String := none
deriving Repr, DecidableEq

/-- `ToolContext` dataclass of `app/tools/base.py`. -/
structure ToolContext where
  user_id : String
  task_id : Option String := none
  trace_id : Option String := none
  metadata : List (String × String) := []
deriving Repr, DecidableEq

/-- A registered capability as the executor sees it: a name, the
`validate_input` step (which may raise — `BaseTool.validate_input` re-raises
pydantic validation failures as `ToolExecutionError`, and overrides may raise
anything) and the `run` step (which may raise anything). -/
structure Tool where
  name : String := ""
  validate_input : List (String × String) → Except PyExc (List (String × String))
  run : ToolContext → List (String × String) → Except PyExc ToolOutput

/-- `ToolRegistry` of `app/tools/registry.py`: its `_tools` dict, keyed by
tool name. -/
structure ToolRegistry where
  tools : List (String × Tool)

/-- `ToolRegistry.get`. -/
def ToolRegistry.get (r : ToolRegistry) (name : String) : Option Tool :=
  match r.tools.find? (fun p => p.1 == name) with
  | none => none
  | some p => some p.2

/-- `ToolRegistry.require`: raises `KeyError(f"Unknown tool \x27{name}\x27")`
when the name is not registered. -/
def ToolRegistry.require (r : ToolRegistry) (name : String) :
    Except PyExc Tool :=
  match r.get name with
  | none => Except.error (.keyError ("Unknown tool \x27" ++ name ++ "\x27"))
  | some t => Except.ok t

/-- `ToolExecutionRecord` dataclass of `app/tools/executor.py`. -/
structure ToolExecutionRecord where
  tool_name : String
  args : List (String × String)
  ok : Bool
  latency_ms : ℤ
  output : List (String × String) := []
  error : Option String := none
deriving Repr, DecidableEq

/-- The body of the `try` block of `ToolExecutor.execute`: whitelist check,
registry resolution, input validation, capability run. Any of the four can
raise. -/
def ToolExecutor.attempt (registry : ToolRegistry) (tool_name : String)
    (args : List (String × String)) (ctx : ToolContext)
    (whitelist : Option (List String)) : Except PyExc ToolOutput :=
  let whitelistCheck : Except PyExc Unit :=
    match whitelist with
    | some w =>
      if tool_name ∉ w then
        Except.error (.toolExecutionError
          ("Tool \x27" ++ tool_name ++ "\x27 is not allowed by whitelist"))
      else Except.ok ()
    | none => Except.ok ()
  match whitelistCheck with
  | .error e => .error e
  | .ok _ =>
    match registry.require tool_name with
    | .error e => .error e
    | .ok tool =>
      match tool.validate_input args with
      | .error e => .error e
      | .ok parsed => tool.run ctx parsed

/-- `ToolExecutor.execute` of `app/tools/executor.py`. The function is total:
every exception the `try` body can raise is consumed by one of the three
`except` clauses, which is the code's "never raises to the caller" guarantee.
`latency` is the wall-clock duration in whole milliseconds measured at the
point the record is built (an oracle input here, as time is external). -/
def ToolExecutor.execute (registry : ToolRegistry) (user_id : String)
    (tool_name : String) (args : List (String × String))
    (task_id : Option String) (trace_id : Option String)
    (metadata : Option (List (String × String)))
    (whitelist : Option (List String)) (latency : ℤ) : ToolExecutionRecord :=
  let ctx : ToolContext :=
    { user_id := user_id, task_id := task_id, trace_id := trace_id
      metadata := metadata.getD [] }
  match ToolExecutor.attempt registry tool_name args ctx whitelist with
  | .ok out =>
    { tool_name := tool_name, args := args, ok := out.ok
      latency_ms := latency, output := out.data, error := out.error }
  | .error (.keyError m) =>
    { tool_name := tool_name, args := args, ok := false
      latency_ms := latency, error := some (PyExc.toText (.keyError m)) }
  | .error (.toolExecutionError m) =>
    { tool_name := tool_name, args := args, ok := false
      latency_ms := latency, error := some (PyExc.toText (.toolExecutionError m)) }
  | .error (.otherExc m) =>
    { tool_name := tool_name, args := args, ok := false
      latency_ms := latency, error := some ("Unhandled tool error: " ++ m) }

/- ----------------------------------------------------------------------
app/tools/models.py
---------------------------------------------------------------------- -/

/-- `FunctionCall` pydantic model of `app/tools/models.py`. -/
structure FunctionCall where
  name : String
  arguments : List (String × String) := []
deriving Repr, DecidableEq

/-- A value stored in a step's `notes: Dict[str, Any]`: the loop only ever
stores `None`, strings, booleans and integers there. -/
inductive NoteVal where
  | vNone
  | vStr (s : String)
  | vBool (b : Bool)
  | vInt (n : ℤ)
deriving Repr, DecidableEq

/-- Embed an `Optional[str]` note value. -/
def noteOfOptStr : Option String → NoteVal
  | none => .vNone
  | some s => .vStr s

/-- `AgentStepResult` pydantic model of `app/tools/models.py`. -/
structure AgentStepResult where
  step_index : ℤ
  thought : String := ""
  action : String := "reflect"
  function_call : Option FunctionCall := none
  final_text : Option String := none
  confidence : ℚ := 0
  notes : List (String × NoteVal) := []
deriving Repr, DecidableEq

/-- `AgentRunRequest` pydantic model of `app/tools/models.py` (pydantic field
validation — `1 ≤ max_iterations ≤ 20` etc. — happens at the HTTP boundary
and is not assumed by the loop, so the fields are unconstrained here). -/
structure AgentRunRequest where
  prompt : String
  max_iterations : ℤ := 6
  allow_tools : Bool := true
  tool_whitelist : Option (List String) := none
  timeout_ms : ℤ := 20000
deriving Repr, DecidableEq

/-- One entry of the loop's `tool_traces` list. -/
structure ToolTraceEntry where
  step : ℤ
  tool : String
  ok : Bool
  latency_ms : ℤ
  output : List (String × String)
  error : Option String
deriving Repr, DecidableEq

/-- One entry of the loop's `working_memory` list (only `tool_result` entries
are ever appended, but the `type` tag is kept because `has_tool_result`
inspects it). -/
structure WMEntry where
  type : String
  step : ℤ
  tool : String
  ok : Bool
  output : List (String × String)
  error : Option String
deriving Repr, DecidableEq

/-- The run-level `decision_trace` dict assembled after the loop (the random
`trace_id` is omitted; the nested `policy` sub-dict is flattened). -/
structure DecisionTrace where
  iterations : ℤ
  max_iterations : ℤ
  timeout_ms : ℤ
  elapsed_ms : ℤ
  retry_total : ℤ
  retry_per_tool : List (String × ℤ)
  min_confidence_to_finalize : ℚ
  max_total_retries : ℤ
  max_retries_per_tool : ℤ
  whitelist_active : Bool
  whitelist : Option (List String)
deriving Repr, DecidableEq

/-- `AgentRunResponse` pydantic model of `app/tools/models.py`. -/
structure AgentRunResponse where
  ok : Bool
  answer : String
  steps : List AgentStepResult
  tool_traces : List ToolTraceEntry
  decision_trace : DecisionTrace
  error : Option String
deriving Repr, DecidableEq

/- ----------------------------------------------------------------------
app/agent/loop_v2.py
---------------------------------------------------------------------- -/

/-- Total order on strings by code points (Python string comparison),
kernel-computable. -/
def charsLe : List Char → List Char → Bool
  | [], _ => true
  | _ :: _, [] => false
  | a :: as, b :: bs =>
    if a.toNat < b.toNat then true
    else if b.toNat < a.toNat then false
    else charsLe as bs

/-- Insert into a sorted list of strings. -/
def insertSorted (x : String) : List String → List String
  | [] => [x]
  | y :: ys => if charsLe x.data y.data then x :: y :: ys else y :: insertSorted x ys

/-- Python `sorted` on a list of strings. -/
def sortStrings (l : List String) : List String :=
  l.foldr insertSorted []

/-- The loop's `whitelist_set : Optional[Set[str]] = set(req.tool_whitelist)
if req.tool_whitelist else None` — Python truthiness maps both `None` and an
empty list to `None`. The set is modelled as the deduplicated list. -/
def whitelistSet : Option (List String) → Option (List String)
  | none => none
  | some l => if l = [] then none else some l.dedup

/-- The `has_tool_result` computation of the loop:
`any(x.get("type") == "tool_result" and x.get("ok") for x in working_memory)`. -/
def hasToolResult (wm : List WMEntry) : Bool :=
  wm.any (fun x => x.type == "tool_result" && x.ok)

/-- The timeout error message `f"Agent timeout after {elapsed_ms}ms"`. -/
def timeoutMsg (elapsed_ms : ℤ) : String :=
  "Agent timeout after " ++ toString elapsed_ms ++ "ms"

/-- The default answer synthesized on normal exhaustion. -/
def defaultAnswer : String :=
  "No final answer produced within iteration budget."

/-- The step-notes expression
`{"arbiter_reason": decision.reason} if decision.reason else {}` (Python
truthiness: an empty-string reason also yields `{}`). -/
def reasonNotes : Option String → List (String × NoteVal)
  | none => []
  | some r => if r = "" then [] else [("arbiter_reason", .vStr r)]

/-- The mutable local state of one `IterativeAgentLoopV2.run` invocation. -/
structure LoopState where
  steps : List AgentStepResult := []
  tool_traces : List ToolTraceEntry := []
  working_memory : List WMEntry := []
  final_answer : Option String := none
  error : Option String := none
  retry_state : RetryState := {}
  last_tool_name : Option String := none

/-- The environment of a run: the request, the policy, and the three external
effects the loop consumes — the planner adapter (`self.llm.next_step`,
already coalesced through `or {}` and field extraction into a `PlannerStep`;
within one run its output can depend only on the iteration index and the
working memory, all other payload fields being run constants), the tool
executor (`self.tools.execute`, abstracted as an oracle from iteration index,
tool name and arguments to the returned record — this covers every behaviour
of the concrete executor, including whitelist enforcement), and the wall
clock (`clock i` = `elapsed_ms` observed at the top of iteration `i`;
`final_elapsed` = the reading taken while assembling the decision trace). -/
structure LoopEnv where
  req : AgentRunRequest
  policy : AgentPolicy := {}
  planner : ℕ → List WMEntry → PlannerStep
  toolExec : ℕ → String → List (String × String) → ToolExecutionRecord
  clock : ℕ → ℤ
  final_elapsed : ℤ := 0

/-- One iteration of the `for i in range(max_iterations)` body of
`IterativeAgentLoopV2.run`. Returns the updated state and `true` when the
body executed a `break` (timeout or final decision). -/
def stepIter (env : LoopEnv) (i : ℕ) (st : LoopState) : LoopState × Bool :=
  let elapsed_ms := env.clock i
  if elapsed_ms > env.req.timeout_ms then
    ({ st with error := some (timeoutMsg elapsed_ms) }, true)
  else
    let planner_step := env.planner i st.working_memory
    let decision := HybridArbiter.decide planner_step env.req.allow_tools
      env.policy.min_confidence_to_finalize (hasToolResult st.working_memory)
    if decision.action = "final" then
      let answer := strOrEmpty decision.final_text
      let finalStep : AgentStepResult :=
        { step_index := (i : ℤ),
          thought := decision.thought,
          action := "final",
          final_text := some answer,
          confidence := decision.confidence,
          notes := reasonNotes decision.reason }
      ({ st with final_answer := some answer,
                 steps := st.steps ++ [finalStep] }, true)
    else if decision.action = "tool" ∧ env.req.allow_tools = true then
      let fc := decision.function_call
      let fname := pyStrip fc.rawName
      let fargs := fc.argumentsOrEmpty
      let trec := env.toolExec i fname fargs
      let traceEntry : ToolTraceEntry :=
        { step := (i : ℤ), tool := trec.tool_name, ok := trec.ok,
          latency_ms := trec.latency_ms, output := trec.output,
          error := trec.error }
      let wmEntry : WMEntry :=
        { type := "tool_result", step := (i : ℤ), tool := trec.tool_name,
          ok := trec.ok, output := trec.output, error := trec.error }
      let toolStep : AgentStepResult :=
        { step_index := (i : ℤ),
          thought := decision.thought,
          action := "tool",
          function_call := some { name := fname, arguments := fargs },
          confidence := decision.confidence,
          notes := [("tool_ok", .vBool trec.ok),
                    ("tool_error", noteOfOptStr trec.error)] }
      let st₁ : LoopState :=
        { st with last_tool_name := some fname,
                  tool_traces := st.tool_traces ++ [traceEntry],
                  working_memory := st.working_memory ++ [wmEntry],
                  steps := st.steps ++ [toolStep] }
      if trec.ok = false then
        if st₁.retry_state.can_retry (some fname) env.policy then
          let rs := st₁.retry_state.mark_retry (some fname)
          let retryStep : AgentStepResult :=
            { step_index := (i : ℤ),
              thought := "Tool failed; retry authorized by policy.",
              action := "retry",
              confidence := max (decision.confidence - 0.1) 0,
              notes := [("failed_tool", .vStr fname),
                        ("total_retries", .vInt rs.total_retries),
                        ("tool_retries", .vInt (dictGet rs.per_tool fname 0))] }
          ({ st₁ with retry_state := rs,
                      steps := st₁.steps ++ [retryStep] }, false)
        else
          let exhaustedStep : AgentStepResult :=
            { step_index := (i : ℤ),
              thought := "Retry budget exhausted; switching to reflection.",
              action := "reflect",
              confidence := max (decision.confidence - 0.2) 0,
              notes := [("failed_tool", .vStr fname),
                        ("retry_exhausted", .vBool true)] }
          ({ st₁ with steps := st₁.steps ++ [exhaustedStep] }, false)
      else (st₁, false)
    else if decision.action = "retry" then
      if st.retry_state.can_retry st.last_tool_name env.policy then
        let rs := st.retry_state.mark_retry st.last_tool_name
        let retryStep : AgentStepResult :=
          { step_index := (i : ℤ),
            thought := if decision.thought = "" then "Retry selected."
                       else decision.thought,
            action := "retry",
            confidence := decision.confidence,
            notes := [("retry_target_tool", noteOfOptStr st.last_tool_name),
                      ("total_retries", .vInt rs.total_retries),
                      ("tool_retries",
                        .vInt (dictGet rs.per_tool (st.last_tool_name.getD "") 0))] }
        ({ st with retry_state := rs,
                   steps := st.steps ++ [retryStep] }, false)
      else
        let deniedStep : AgentStepResult :=
          { step_index := (i : ℤ),
            thought := "Retry denied by policy budget.",
            action := "reflect",
            confidence := max (decision.confidence - 0.2) 0,
            notes := [("retry_exhausted", .vBool true)] }
        ({ st with steps := st.steps ++ [deniedStep] }, false)
    else
      let reflectStep : AgentStepResult :=
        { step_index := (i : ℤ),
          thought := decision.thought,
          action := "reflect",
          confidence := decision.confidence,
          notes := reasonNotes decision.reason }
      ({ st with steps := st.steps ++ [reflectStep] }, false)

/-- The `for` loop of `IterativeAgentLoopV2.run`, starting at iteration `i`
with `n` iterations remaining; a `break` stops the recursion. -/
def runFrom (env : LoopEnv) : ℕ → ℕ → LoopState → LoopState
  | _, 0, st => st
  | i, n + 1, st =>
    let r := stepIter env i st
    if r.2 then r.1 else runFrom env (i + 1) n r.1

/-- `IterativeAgentLoopV2.run` of `app/agent/loop_v2.py`: clamp the iteration
budget, run the loop, synthesize the default answer on normal exhaustion, and
assemble the response with its decision trace. -/
def IterativeAgentLoopV2.run (env : LoopEnv) : AgentRunResponse :=
  let max_iterations := clamp_iterations env.req.max_iterations env.policy
  let wl := whitelistSet env.req.tool_whitelist
  let st := runFrom env 0 max_iterations.toNat {}
  let final_answer :=
    if st.final_answer = none ∧ st.error = none then some defaultAnswer
    else st.final_answer
  { ok := st.error.isNone,
    answer := strOrEmpty final_answer,
    steps := st.steps,
    tool_traces := st.tool_traces,
    decision_trace := {
      iterations := (st.steps.length : ℤ),
      max_iterations := max_iterations,
      timeout_ms := env.req.timeout_ms,
      elapsed_ms := env.final_elapsed,
      retry_total := st.retry_state.total_retries,
      retry_per_tool := st.retry_state.per_tool,
      min_confidence_to_finalize := env.policy.min_confidence_to_finalize,
      max_total_retries := env.policy.retry.max_total_retries,
      max_retries_per_tool := env.policy.retry.max_retries_per_tool,
      whitelist_active := wl.isSome,
      whitelist := wl.map sortStrings },
    error := st.error }

/- ----------------------------------------------------------------------
Auxiliary definitions for the stated properties
---------------------------------------------------------------------- -/

/-- The retry-state safety invariant of C10: the global counter respects the
global budget, every per-tool counter respects the per-tool budget, and the
global counter dominates the sum of the per-tool counters. -/
def RetryInv (policy : AgentPolicy) (rs : RetryState) : Prop :=
  rs.total_retries ≤ policy.retry.max_total_retries ∧
  (∀ p ∈ rs.per_tool, p.2 ≤ policy.retry.max_retries_per_tool) ∧
  dictValuesSum rs.per_tool ≤ rs.total_retries

/-- A concrete run environment in which the planner always proposes the tool
`now` and every execution of it fails: exercises the retry-exhaustion path. -/
def envRetryFail : LoopEnv :=
  { req := { prompt := "get time" },
    planner := fun _ _ => { action := "tool", function_call := .dict "now" [] },
    toolExec := fun _ n a =>
      { tool_name := n, args := a, ok := false, latency_ms := 1,
        error := some "boom" },
    clock := fun _ => 0 }

/-- A concrete run environment in which the planner returns an empty proposal
every iteration (normalizing to `reflect`), so the run exhausts its budget
normally and synthesizes the default answer. -/
def envExhaust : LoopEnv :=
  { req := { prompt := "think" },
    planner := fun _ _ => {},
    toolExec := fun _ n a =>
      { tool_name := n, args := a, ok := true, latency_ms := 0 },
    clock := fun _ => 0 }

/-- A run environment under the constructible degenerate policy
`max_total_retries = -1` (the `RetryPolicy` dataclass performs no
validation): the fresh retry state's `total_retries = 0` already exceeds the
global budget. -/
def envNegBudget : LoopEnv :=
  { req := { prompt := "think" },
    policy := { retry := { max_total_retries := -1 } },
    planner := fun _ _ => {},
    toolExec := fun _ n a =>
      { tool_name := n, args := a, ok := true, latency_ms := 0 },
    clock := fun _ => 0 }

/- ----------------------------------------------------------------------
Theorems
---------------------------------------------------------------------- -/

/-- C8 (counterexample): the claim quantifies over every policy, but for the
constructible policy with `max_iterations_cap = 0` the returned value lies
outside `[1, max_iterations_cap]`: `clamp_iterations 5` returns `0`. -/
theorem clamp_iterations_claim_cex :
    ¬(1 ≤ clamp_iterations 5 ({ max_iterations_cap := 0 } : AgentPolicy) ∧
      clamp_iterations 5 ({ max_iterations_cap := 0 } : AgentPolicy) ≤
        ({ max_iterations_cap := 0 } : AgentPolicy).max_iterations_cap) := by
  decide

/-- C8 (amended): for every integer `v` and every policy whose
`max_iterations_cap` is at least `1`, `clamp_iterations` returns a value in
`[1, max_iterations_cap]` and is idempotent. -/
theorem clamp_iterations_range_idem (v : ℤ) (policy : AgentPolicy)
    (hcap : 1 ≤ policy.max_iterations_cap) :
    (1 ≤ clamp_iterations v policy ∧
      clamp_iterations v policy ≤ policy.max_iterations_cap) ∧
    clamp_iterations (clamp_iterations v policy) policy =
      clamp_iterations v policy := by
  unfold clamp_iterations
  split_ifs <;> omega

/-- C8 (witness): the amended theorem applied at `v = 25` under the default
policy (`max_iterations_cap = 20`). -/
theorem clamp_iterations_range_idem_witness :
    (1 ≤ clamp_iterations 25 ({} : AgentPolicy) ∧
      clamp_iterations 25 ({} : AgentPolicy) ≤ ({} : AgentPolicy).max_iterations_cap) ∧
    clamp_iterations (clamp_iterations 25 ({} : AgentPolicy)) ({} : AgentPolicy) =
      clamp_iterations 25 ({} : AgentPolicy) :=
  clamp_iterations_range_idem 25 {} (by decide)

/-- C7: once `total_retries` reaches the global bound, `can_retry` is `false`
for every tool name (including `None`), regardless of the per-tool map; and
under the global bound, `can_retry None` is `true` — the global budget is the
only gate when no tool name is given. -/
theorem can_retry_budget (st : RetryState) (policy : AgentPolicy) :
    (policy.retry.max_total_retries ≤ st.total_retries →
      ∀ tool_name : Option String, st.can_retry tool_name policy = false) ∧
    (st.total_retries < policy.retry.max_total_retries →
      st.can_retry none policy = true) := by
  constructor
  · intro h tool_name
    unfold RetryState.can_retry
    rw [if_pos (by omega)]
  · intro h
    unfold RetryState.can_retry
    rw [if_neg (by omega)]

/-- C7 (witness): under the default policy (`max_total_retries = 3`), a state
with 3 total retries refuses every tool name, and a fresh state permits a
`None` tool name. -/
theorem can_retry_budget_witness :
    RetryState.can_retry { total_retries := 3 } (some "now") ({} : AgentPolicy) = false ∧
    RetryState.can_retry {} none ({} : AgentPolicy) = true :=
  ⟨(can_retry_budget { total_retries := 3 } {}).1 (by decide) (some "now"),
   (can_retry_budget {} {}).2 (by decide)⟩

/-- C6: a proposal whose action normalizes (strip + lower) outside
`{tool, reflect, retry, final}` yields exactly `reflect` with confidence `0`,
reason `invalid_action`, the fixed explanatory thought, and neither
`function_call` nor `final_text` carried over. -/
theorem arbiter_invalid_action (ps : PlannerStep) (allow_tools has_tool_result : Bool)
    (mc : ℚ)
    (h : ¬(pyLower (pyStrip ps.action) = "tool" ∨
           pyLower (pyStrip ps.action) = "reflect" ∨
           pyLower (pyStrip ps.action) = "retry" ∨
           pyLower (pyStrip ps.action) = "final")) :
    HybridArbiter.decide ps allow_tools mc has_tool_result =
      { action := "reflect",
        thought := "Invalid planner action normalized to reflect.",
        confidence := 0,
        function_call := .missing,
        final_text := none,
        reason := some "invalid_action" } := by
  unfold HybridArbiter.decide
  rw [if_pos h]

/-- C6 (witness): the theorem applied to the proposal `{action: "Banana"}`
(with a carried `function_call` and `final_text`, which are discarded). -/
theorem arbiter_invalid_action_witness :
    HybridArbiter.decide
      { action := "Banana", function_call := .dict "now" [], final_text := some "x" }
      true 1 false =
      { action := "reflect",
        thought := "Invalid planner action normalized to reflect.",
        confidence := 0,
        function_call := .missing,
        final_text := none,
        reason := some "invalid_action" } :=
  arbiter_invalid_action
    { action := "Banana", function_call := .dict "now" [], final_text := some "x" }
    true false 1 (by decide)

/-- C4: the three malformed/disallowed arbiter gates. A `tool` action with
tools disabled yields `reflect/tools_disabled`; a `tool` action with tools
allowed but an invalid `function_call` (missing, not a dict, or blank name)
yields `reflect/invalid_function_call`; a `final` action whose `final_text`
strips to empty yields `reflect/empty_final_text`. Each carries the fixed
thought and confidence `max(confidence - 0.2, 0)`. -/
theorem arbiter_gate_penalties (ps : PlannerStep) (allow_tools has_tool_result : Bool)
    (mc : ℚ) :
    (pyLower (pyStrip ps.action) = "tool" → allow_tools = false →
      HybridArbiter.decide ps allow_tools mc has_tool_result =
        { action := "reflect",
          thought := "Tools are disabled by request.",
          confidence := max (ps.confidence - 0.2) 0,
          function_call := .missing,
          final_text := none,
          reason := some "tools_disabled" }) ∧
    (pyLower (pyStrip ps.action) = "tool" → allow_tools = true →
      ps.function_call.hasValidName = false →
      HybridArbiter.decide ps allow_tools mc has_tool_result =
        { action := "reflect",
          thought := "Invalid function_call payload.",
          confidence := max (ps.confidence - 0.2) 0,
          function_call := .missing,
          final_text := none,
          reason := some "invalid_function_call" }) ∧
    (pyLower (pyStrip ps.action) = "final" →
      pyStrip (strOrEmpty ps.final_text) = "" →
      HybridArbiter.decide ps allow_tools mc has_tool_result =
        { action := "reflect",
          thought := "Finalization blocked: empty final_text.",
          confidence := max (ps.confidence - 0.2) 0,
          function_call := .missing,
          final_text := none,
          reason := some "empty_final_text" }) := by
  refine ⟨fun h1 h2 => ?_, fun h1 h2 h3 => ?_, fun h1 h2 => ?_⟩ <;>
    unfold HybridArbiter.decide <;> simp only [h1, h2] <;> simp_all

/-- C4 (witness): the tools-disabled gate applied to a concrete well-formed
tool proposal with `allow_tools = false`; the action and reason are extracted
from the record equality the theorem yields. -/
theorem arbiter_gate_penalties_witness :
    (HybridArbiter.decide { action := "tool", function_call := .dict "now" [] }
      false 1 false).action = "reflect" ∧
    (HybridArbiter.decide { action := "tool", function_call := .dict "now" [] }
      false 1 false).reason = some "tools_disabled" := by
  have h := (arbiter_gate_penalties
    { action := "tool", function_call := .dict "now" [] } false false 1).1
    (by decide) rfl
  exact ⟨congrArg ArbitrationDecision.action h,
         congrArg ArbitrationDecision.reason h⟩

/-- C5: a well-formed `final` proposal (non-blank text) with confidence below
the threshold and no prior tool result is downgraded to
`reflect/low_confidence_finalize` with confidence unchanged; with a tool
result present, or confidence at or above the threshold, the gate does not
fire and the proposal passes through as a `final` decision. -/
theorem arbiter_low_confidence_gate (ps : PlannerStep)
    (allow_tools has_tool_result : Bool) (mc : ℚ)
    (h1 : pyLower (pyStrip ps.action) = "final")
    (h2 : ¬(pyStrip (strOrEmpty ps.final_text) = "")) :
    (ps.confidence < mc → has_tool_result = false →
      HybridArbiter.decide ps allow_tools mc has_tool_result =
        { action := "reflect",
          thought := "Finalization blocked: low confidence without evidence.",
          confidence := ps.confidence,
          function_call := .missing,
          final_text := none,
          reason := some "low_confidence_finalize" }) ∧
    (has_tool_result = true ∨ mc ≤ ps.confidence →
      HybridArbiter.decide ps allow_tools mc has_tool_result =
        { action := "final",
          thought := ps.thought,
          confidence := ps.confidence,
          function_call := .missing,
          final_text := ps.final_text,
          reason := none }) := by
  constructor
  · intro hc hr
    subst hr
    unfold HybridArbiter.decide
    simp [h1, h2, hc]
  · intro hor
    unfold HybridArbiter.decide
    rcases hor with hr | hc
    · subst hr
      simp [h1, h2]
    · simp [h1, h2, not_lt.mpr hc]

/-- C5 (witness): gate fires at confidence `0 < 1 = mc` without tool result
(confidence preserved, reason `low_confidence_finalize`), and passes through
when a tool result exists. -/
theorem arbiter_low_confidence_gate_witness :
    (HybridArbiter.decide { action := "final", final_text := some "It is 10:00" }
      true 1 false).reason = some "low_confidence_finalize" ∧
    (HybridArbiter.decide { action := "final", final_text := some "It is 10:00" }
      true 1 true).action = "final" := by
  have h1 := (arbiter_low_confidence_gate
    { action := "final", final_text := some "It is 10:00" } true false 1
    (by decide) (by decide)).1 (by decide) rfl
  have h2 := (arbiter_low_confidence_gate
    { action := "final", final_text := some "It is 10:00" } true true 1
    (by decide) (by decide)).2 (Or.inl rfl)
  exact ⟨congrArg ArbitrationDecision.reason h1,
         congrArg ArbitrationDecision.action h2⟩

/-- C9 (counterexample): arbitration confidence is not always in `[0,1]` —
the planner's confidence is unclamped on input, and the pass-through branch
returns it unchanged: a `reflect` proposal with confidence `2` yields a
decision with confidence `2 > 1`. -/
theorem arbiter_confidence_claim_cex :
    1 < (HybridArbiter.decide { action := "reflect", confidence := 2 }
      true 1 false).confidence := by
  have h : (HybridArbiter.decide { action := "reflect", confidence := 2 }
      true 1 false).confidence = 2 := rfl
  rw [h]
  norm_num

/-- C9 (amended): whenever the input confidence is in `[0,1]` (as every gate
assumes of a planner float), the decision's confidence is in `[0,1]`, for
every proposal and every combination of `allow_tools`,
`min_confidence_to_finalize` and `has_tool_result`. -/
theorem arbiter_confidence_bounded (ps : PlannerStep)
    (allow_tools has_tool_result : Bool) (mc : ℚ)
    (h0 : 0 ≤ ps.confidence) (h1 : ps.confidence ≤ 1) :
    0 ≤ (HybridArbiter.decide ps allow_tools mc has_tool_result).confidence ∧
    (HybridArbiter.decide ps allow_tools mc has_tool_result).confidence ≤ 1 := by
  unfold HybridArbiter.decide
  dsimp only
  split_ifs <;> refine ⟨?_, ?_⟩ <;>
    first
      | exact le_refl _
      | exact zero_le_one
      | exact h0
      | exact h1
      | exact le_max_right _ _
      | exact max_le (by linarith) zero_le_one

/-- C9 (witness): the amended theorem applied to a `retry` proposal with
confidence `1`. -/
theorem arbiter_confidence_bounded_witness :
    0 ≤ (HybridArbiter.decide { action := "retry", confidence := 1 }
      true 1 false).confidence ∧
    (HybridArbiter.decide { action := "retry", confidence := 1 }
      true 1 false).confidence ≤ 1 :=
  arbiter_confidence_bounded { action := "retry", confidence := 1 }
    true false 1 zero_le_one (le_refl 1)

/-- C2: `ToolExecutor.execute` is total by construction (its Lean type is
`ToolExecutionRecord`, not `Except`, because every exception the Python `try`
body can raise is consumed by an `except` clause), `latency_ms` carries the
measured wall-clock duration on every path, and each of the four failure
modes — whitelist miss, unknown tool, validation failure, exception during
the capability's run — yields `ok = false` with a non-null error. -/
theorem executor_failure_paths (registry : ToolRegistry) (user_id tool_name : String)
    (args : List (String × String)) (task_id trace_id : Option String)
    (metadata : Option (List (String × String)))
    (whitelist : Option (List String)) (latency : ℤ) :
    (ToolExecutor.execute registry user_id tool_name args task_id trace_id
        metadata whitelist latency).latency_ms = latency ∧
    (∀ w, whitelist = some w → tool_name ∉ w →
      (ToolExecutor.execute registry user_id tool_name args task_id trace_id
          metadata whitelist latency).ok = false ∧
      (ToolExecutor.execute registry user_id tool_name args task_id trace_id
          metadata whitelist latency).error ≠ none) ∧
    ((whitelist = none ∨ ∃ w, whitelist = some w ∧ tool_name ∈ w) →
      registry.get tool_name = none →
      (ToolExecutor.execute registry user_id tool_name args task_id trace_id
          metadata whitelist latency).ok = false ∧
      (ToolExecutor.execute registry user_id tool_name args task_id trace_id
          metadata whitelist latency).error ≠ none) ∧
    (∀ tool e, (whitelist = none ∨ ∃ w, whitelist = some w ∧ tool_name ∈ w) →
      registry.get tool_name = some tool →
      tool.validate_input args = .error e →
      (ToolExecutor.execute registry user_id tool_name args task_id trace_id
          metadata whitelist latency).ok = false ∧
      (ToolExecutor.execute registry user_id tool_name args task_id trace_id
          metadata whitelist latency).error ≠ none) ∧
    (∀ tool parsed e, (whitelist = none ∨ ∃ w, whitelist = some w ∧ tool_name ∈ w) →
      registry.get tool_name = some tool →
      tool.validate_input args = .ok parsed →
      tool.run { user_id := user_id, task_id := task_id, trace_id := trace_id,
                 metadata := metadata.getD [] } parsed = .error e →
      (ToolExecutor.execute registry user_id tool_name args task_id trace_id
          metadata whitelist latency).ok = false ∧
      (ToolExecutor.execute registry user_id tool_name args task_id trace_id
          metadata whitelist latency).error ≠ none) := by
  refine ⟨?_, ?_, ?_, ?_, ?_⟩
  · unfold ToolExecutor.execute
    dsimp only
    split <;> rfl
  · intro w hw hmem
    subst hw
    unfold ToolExecutor.execute ToolExecutor.attempt
    dsimp only
    simp [hmem]
  · intro hpass hget
    have hatt : ToolExecutor.attempt registry tool_name args
        { user_id := user_id, task_id := task_id, trace_id := trace_id,
          metadata := metadata.getD [] } whitelist =
        .error (.keyError ("Unknown tool \x27" ++ tool_name ++ "\x27")) := by
      unfold ToolExecutor.attempt ToolRegistry.require
      rcases hpass with h | ⟨w, hw, hmem⟩
      · subst h
        simp [hget]
      · subst hw
        simp [hmem, hget]
    unfold ToolExecutor.execute
    dsimp only
    rw [hatt]
    exact ⟨rfl, by simp⟩
  · intro tool e hpass hget hval
    have hatt : ToolExecutor.attempt registry tool_name args
        { user_id := user_id, task_id := task_id, trace_id := trace_id,
          metadata := metadata.getD [] } whitelist = .error e := by
      unfold ToolExecutor.attempt ToolRegistry.require
      rcases hpass with h | ⟨w, hw, hmem⟩
      · subst h
        simp [hget, hval]
      · subst hw
        simp [hmem, hget, hval]
    unfold ToolExecutor.execute
    dsimp only
    rw [hatt]
    cases e <;> exact ⟨rfl, by simp⟩
  · intro tool parsed e hpass hget hval hrun
    have hatt : ToolExecutor.attempt registry tool_name args
        { user_id := user_id, task_id := task_id, trace_id := trace_id,
          metadata := metadata.getD [] } whitelist = .error e := by
      unfold ToolExecutor.attempt ToolRegistry.require
      rcases hpass with h | ⟨w, hw, hmem⟩
      · subst h
        simp [hget, hval, hrun]
      · subst hw
        simp [hmem, hget, hval, hrun]
    unfold ToolExecutor.execute
    dsimp only
    rw [hatt]
    cases e <;> exact ⟨rfl, by simp⟩

/-- C2 (witness): executing an unknown tool name against an empty registry
(no whitelist) returns a failure record with a non-null error and the
measured latency. -/
theorem executor_failure_paths_witness :
    (ToolExecutor.execute ⟨[]⟩ "u" "now" [] none none none none 7).ok = false ∧
    (ToolExecutor.execute ⟨[]⟩ "u" "now" [] none none none none 7).error ≠ none ∧
    (ToolExecutor.execute ⟨[]⟩ "u" "now" [] none none none none 7).latency_ms = 7 := by
  have h := executor_failure_paths ⟨[]⟩ "u" "now" [] none none none none 7
  exact ⟨(h.2.2.1 (Or.inl rfl) rfl).1, (h.2.2.1 (Or.inl rfl) rfl).2, h.1⟩

/-- Every binding of an updated dict is either the new binding or one of the
old ones. -/
theorem dictSet_mem (m : List (String × ℤ)) (k : String) (v : ℤ) :
    ∀ p ∈ dictSet m k v, p = (k, v) ∨ p ∈ m := by
  induction m with
  | nil =>
    intro p hp
    simp [dictSet] at hp
    exact Or.inl hp
  | cons a rest ih =>
    intro p hp
    unfold dictSet at hp
    split_ifs at hp with hk
    · rcases List.mem_cons.mp hp with h | h
      · exact Or.inl h
      · exact Or.inr (List.mem_cons_of_mem _ h)
    · rcases List.mem_cons.mp hp with h | h
      · exact Or.inr (h ▸ List.mem_cons_self _ _)
      · rcases ih p h with h' | h'
        · exact Or.inl h'
        · exact Or.inr (List.mem_cons_of_mem _ h')

/-- Incrementing one key of a dict increments the sum of its values by one. -/
theorem dictValuesSum_incr (m : List (String × ℤ)) (k : String) :
    dictValuesSum (dictSet m k (dictGet m k 0 + 1)) = dictValuesSum m + 1 := by
  induction m with
  | nil => simp [dictSet, dictGet, dictValuesSum]
  | cons a rest ih =>
    by_cases hk : a.1 = k
    · simp [dictSet, dictGet, dictValuesSum, hk]
      omega
    · have hbeq : (a.1 == k) = false := beq_eq_false_iff_ne.mpr hk
      simp [dictSet, dictGet, dictValuesSum, hk, hbeq] at ih ⊢
      omega

/-- An authorized `mark_retry` (one performed immediately after `can_retry`
returned `true`, which is the only way the loop calls it) preserves the
retry-state invariant. -/
theorem mark_retry_inv (st : RetryState) (tool_name : Option String)
    (policy : AgentPolicy)
    (hcan : st.can_retry tool_name policy = true)
    (hinv : RetryInv policy st) :
    RetryInv policy (st.mark_retry tool_name) := by
  obtain ⟨htot, hper, hsum⟩ := hinv
  have hlt : st.total_retries < policy.retry.max_total_retries := by
    by_contra h
    unfold RetryState.can_retry at hcan
    rw [if_pos (by omega)] at hcan
    exact absurd hcan (by simp)
  rcases tool_name with _ | s
  · refine ⟨?_, hper, ?_⟩
    · show st.total_retries + 1 ≤ _
      omega
    · show dictValuesSum st.per_tool ≤ st.total_retries + 1
      omega
  · by_cases hs : s = ""
    · have hm : RetryState.mark_retry st (some s) =
          { st with total_retries := st.total_retries + 1 } := by
        unfold RetryState.mark_retry
        dsimp only
        rw [if_pos hs]
      rw [hm]
      exact ⟨by dsimp only; omega, hper,
        by show dictValuesSum st.per_tool ≤ st.total_retries + 1; omega⟩
    · have hused : dictGet st.per_tool s 0 < policy.retry.max_retries_per_tool := by
        unfold RetryState.can_retry at hcan
        rw [if_neg (by omega)] at hcan
        simpa [hs] using hcan
      have hm : RetryState.mark_retry st (some s) =
          { st with total_retries := st.total_retries + 1,
                    per_tool := dictSet st.per_tool s (dictGet st.per_tool s 0 + 1) } := by
        unfold RetryState.mark_retry
        dsimp only
        rw [if_neg hs]
      rw [hm]
      refine ⟨by dsimp only; omega, ?_, ?_⟩
      · intro p hp
        dsimp only at hp
        rcases dictSet_mem _ _ _ p hp with h | h
        · rw [h]
          dsimp only
          omega
        · exact hper p h
      · dsimp only
        rw [dictValuesSum_incr]
        omega

/-- One loop iteration preserves the retry-state invariant: the body mutates
`retry_state` only via `mark_retry` guarded by an immediately preceding
`can_retry`. -/
theorem stepIter_retryInv (env : LoopEnv) (i : ℕ) (st : LoopState)
    (hinv : RetryInv env.policy st.retry_state) :
    RetryInv env.policy (stepIter env i st).1.retry_state := by
  unfold stepIter
  dsimp only
  split_ifs with h1 h2 h3 h4 h5 h6 h7 <;>
    first
      | exact hinv
      | (apply mark_retry_inv _ _ _ _ hinv; assumption)

/-- The loop from any starting point preserves the retry-state invariant. -/
theorem runFrom_retryInv (env : LoopEnv) :
    ∀ (n i : ℕ) (st : LoopState),
      RetryInv env.policy st.retry_state →
      RetryInv env.policy (runFrom env i n st).retry_state := by
  intro n
  induction n with
  | zero => intro i st h; exact h
  | succ n ih =>
    intro i st h
    unfold runFrom
    dsimp only
    split
    · exact stepIter_retryInv env i st h
    · exact ih (i + 1) _ (stepIter_retryInv env i st h)

/-- C10 (counterexample): the claimed invariant does not hold for every
policy — under the constructible degenerate policy `max_total_retries = -1`,
the `retry_total` reported in the decision trace (0, the fresh state's
counter, which no retry ever lowers) already exceeds the policy limit, so
`retry_total ≤ max_total_retries` is false for this run. -/
theorem loop_retry_invariant_claim_cex :
    ¬((IterativeAgentLoopV2.run envNegBudget).decision_trace.retry_total ≤
      envNegBudget.policy.retry.max_total_retries) := by
  decide

/-- C10 (amended): throughout every run — for any planner/executor/clock
behaviour — under any policy with a non-negative global budget
(`0 ≤ max_total_retries`, which the claim needs: a negative budget is
violated by the fresh state's zero counter before any retry), the retry
state satisfies the invariant after every iteration, and consequently the
`retry_total` and `retry_per_tool` counters reported in the decision trace
respect the policy bounds, with the global counter dominating the per-tool
sum. -/
theorem loop_retry_state_invariant (env : LoopEnv)
    (hbudget : 0 ≤ env.policy.retry.max_total_retries) :
    (∀ n : ℕ, RetryInv env.policy (runFrom env 0 n {}).retry_state) ∧
    ((IterativeAgentLoopV2.run env).decision_trace.retry_total ≤
        env.policy.retry.max_total_retries ∧
      (∀ p ∈ (IterativeAgentLoopV2.run env).decision_trace.retry_per_tool,
        p.2 ≤ env.policy.retry.max_retries_per_tool) ∧
      dictValuesSum (IterativeAgentLoopV2.run env).decision_trace.retry_per_tool ≤
        (IterativeAgentLoopV2.run env).decision_trace.retry_total) := by
  have hinit : RetryInv env.policy ({} : LoopState).retry_state := by
    refine ⟨hbudget, ?_, ?_⟩
    · intro p hp
      cases hp
    · simp [dictValuesSum]
  have hmain : ∀ n : ℕ, RetryInv env.policy (runFrom env 0 n {}).retry_state :=
    fun n => runFrom_retryInv env n 0 {} hinit
  refine ⟨hmain, ?_⟩
  exact hmain (clamp_iterations env.req.max_iterations env.policy).toNat

/-- C10 (witness): applied to the concrete failing-tool environment under the
default policy. -/
theorem loop_retry_state_invariant_witness :
    (IterativeAgentLoopV2.run envRetryFail).decision_trace.retry_total ≤
      envRetryFail.policy.retry.max_total_retries :=
  (loop_retry_state_invariant envRetryFail (by decide)).2.1

/-- Case analysis of `HybridArbiter.decide`: every gated branch returns a
`reflect` decision; otherwise the proposal passes through with the negations
of the malformed-call and empty-finalization gate conditions available. -/
theorem decide_spec (ps : PlannerStep) (allow_tools htr : Bool) (mc : ℚ) :
    (HybridArbiter.decide ps allow_tools mc htr).action = "reflect" ∨
    ((HybridArbiter.decide ps allow_tools mc htr) =
      { action := pyLower (pyStrip ps.action), thought := ps.thought,
        confidence := ps.confidence,
        function_call := if pyLower (pyStrip ps.action) = "tool"
                         then ps.function_call else .missing,
        final_text := if pyLower (pyStrip ps.action) = "final"
                      then ps.final_text else none,
        reason := none } ∧
      ¬(pyLower (pyStrip ps.action) = "tool" ∧
        ps.function_call.hasValidName = false) ∧
      ¬(pyLower (pyStrip ps.action) = "final" ∧
        pyStrip (strOrEmpty ps.final_text) = "")) := by
  unfold HybridArbiter.decide
  dsimp only
  by_cases h1 : ¬(pyLower (pyStrip ps.action) = "tool" ∨
      pyLower (pyStrip ps.action) = "reflect" ∨
      pyLower (pyStrip ps.action) = "retry" ∨
      pyLower (pyStrip ps.action) = "final")
  · rw [if_pos h1]
    exact Or.inl rfl
  · rw [if_neg h1]
    by_cases h2 : pyLower (pyStrip ps.action) = "tool" ∧ allow_tools = false
    · rw [if_pos h2]
      exact Or.inl rfl
    · rw [if_neg h2]
      by_cases h3 : pyLower (pyStrip ps.action) = "tool" ∧
          ps.function_call.hasValidName = false
      · rw [if_pos h3]
        exact Or.inl rfl
      · rw [if_neg h3]
        by_cases h4 : pyLower (pyStrip ps.action) = "final" ∧
            pyStrip (strOrEmpty ps.final_text) = ""
        · rw [if_pos h4]
          exact Or.inl rfl
        · rw [if_neg h4]
          by_cases h5 : pyLower (pyStrip ps.action) = "final" ∧
              ps.confidence < mc ∧ htr = false
          · rw [if_pos h5]
            exact Or.inl rfl
          · rw [if_neg h5]
            exact Or.inr ⟨rfl, h3, h4⟩

/-- A `function_call` accepted by the malformed-call gate has a name that is
non-blank after stripping. -/
theorem hasValidName_nonblank (fc : PyFC) (h : fc.hasValidName = true) :
    ¬(pyStrip fc.rawName = "") := by
  cases fc with
  | missing => exact absurd h (by decide)
  | notDict => exact absurd h (by decide)
  | dict n a =>
    simp [PyFC.hasValidName] at h
    simpa [PyFC.rawName] using h

/-- A decision whose action is `final` carries a `final_text` that is
non-blank after stripping (this is what the empty-finalization gate enforces
before letting a `final` through). -/
theorem decide_final_text_nonblank (ps : PlannerStep) (allow_tools htr : Bool)
    (mc : ℚ)
    (h : (HybridArbiter.decide ps allow_tools mc htr).action = "final") :
    ¬(pyStrip (strOrEmpty
        (HybridArbiter.decide ps allow_tools mc htr).final_text) = "") := by
  rcases decide_spec ps allow_tools htr mc with hr | ⟨heq, _, hft⟩
  · exact absurd (hr.symm.trans h) (by decide)
  · rw [heq] at h ⊢
    dsimp only at h ⊢
    rw [if_pos h]
    intro hc
    exact hft ⟨h, hc⟩

/-- A decision whose action is `tool` carries a `function_call` that passes
the malformed-call gate. -/
theorem decide_tool_fc_valid (ps : PlannerStep) (allow_tools htr : Bool)
    (mc : ℚ)
    (h : (HybridArbiter.decide ps allow_tools mc htr).action = "tool") :
    (HybridArbiter.decide ps allow_tools mc htr).function_call.hasValidName
      = true := by
  rcases decide_spec ps allow_tools htr mc with hr | ⟨heq, hfc, _⟩
  · exact absurd (hr.symm.trans h) (by decide)
  · rw [heq] at h ⊢
    dsimp only at h ⊢
    rw [if_pos h]
    cases hvb : ps.function_call.hasValidName with
    | false => exact absurd ⟨h, hvb⟩ hfc
    | true => rfl

/-- Shape of one loop iteration: either the timeout check fires and the body
breaks after only setting the error; or a `final` decision breaks after
setting a non-blank answer and appending one `final` step; or the body
continues, leaving `error` and `final_answer` untouched and appending only
steps indexed by the current iteration. -/
theorem stepIter_shape (env : LoopEnv) (i : ℕ) (st : LoopState) :
    (env.req.timeout_ms < env.clock i ∧
      stepIter env i st =
        ({ st with error := some (timeoutMsg (env.clock i)) }, true)) ∨
    (env.clock i ≤ env.req.timeout_ms ∧
      ((∃ a stp, (stepIter env i st).1 =
          { st with final_answer := some a, steps := st.steps ++ [stp] } ∧
          (stepIter env i st).2 = true ∧
          ¬(pyStrip a = "") ∧ stp.action = "final" ∧ stp.step_index = (i : ℤ)) ∨
       ((stepIter env i st).2 = false ∧
        (stepIter env i st).1.error = st.error ∧
        (stepIter env i st).1.final_answer = st.final_answer ∧
        (∀ s ∈ (stepIter env i st).1.steps,
          s ∈ st.steps ∨ s.step_index = (i : ℤ)) ∧
        (∀ s ∈ st.steps, s ∈ (stepIter env i st).1.steps)))) := by
  by_cases hclk : env.req.timeout_ms < env.clock i
  · left
    refine ⟨hclk, ?_⟩
    unfold stepIter
    rw [if_pos hclk]
  · right
    refine ⟨by omega, ?_⟩
    unfold stepIter
    rw [if_neg hclk]
    dsimp only
    split_ifs with hfin htool hok hcan hretry hcan2
    · left
      exact ⟨_, _, rfl, rfl,
        decide_final_text_nonblank _ _ _ _ hfin, rfl, rfl⟩
    all_goals right
    all_goals refine ⟨rfl, rfl, rfl, ?_, ?_⟩
    all_goals dsimp only
    all_goals intro s hs
    all_goals simp only [List.mem_append, List.mem_singleton] at hs ⊢
    all_goals
      first
        | exact Or.inl hs
        | exact Or.inl (Or.inl hs)
        | ((rcases hs with (hs | rfl) | rfl) <;>
            first | exact Or.inl hs | exact Or.inr rfl)
        | ((rcases hs with hs | rfl) <;>
            first | exact Or.inl hs | exact Or.inr rfl)

/-- Induction backbone for C1: running the loop from iteration `i` with the
error unset, all existing steps indexed below `i`, and any existing answer
justified by a recorded `final` step, yields either a timeout error (with a
witnessing iteration whose clock reading exceeded the budget, every recorded
step lying strictly before it) or no error and a still-justified answer. -/
theorem runFrom_error_final (env : LoopEnv) :
    ∀ (n i : ℕ) (st : LoopState),
      st.error = none →
      (∀ s ∈ st.steps, s.step_index < (i : ℤ)) →
      (∀ a, st.final_answer = some a →
        (∃ s ∈ st.steps, s.action = "final") ∧ ¬(pyStrip a = "")) →
      (∀ e, (runFrom env i n st).error = some e →
        ∃ k, i ≤ k ∧ k < i + n ∧ env.req.timeout_ms < env.clock k ∧
          e = timeoutMsg (env.clock k) ∧
          ∀ s ∈ (runFrom env i n st).steps, s.step_index < (k : ℤ)) ∧
      ((runFrom env i n st).error = none →
        ∀ a, (runFrom env i n st).final_answer = some a →
          (∃ s ∈ (runFrom env i n st).steps, s.action = "final") ∧
          ¬(pyStrip a = "")) := by
  intro n
  induction n with
  | zero =>
    intro i st herr hsteps hgf
    rw [show runFrom env i 0 st = st from rfl]
    refine ⟨?_, fun _ => hgf⟩
    intro e he
    rw [herr] at he
    exact Option.noConfusion he
  | succ n ih =>
    intro i st herr hsteps hgf
    have hunf : runFrom env i (n + 1) st =
        (if (stepIter env i st).2 then (stepIter env i st).1
         else runFrom env (i + 1) n (stepIter env i st).1) := rfl
    rcases stepIter_shape env i st with ⟨hclk, heq⟩ | ⟨hclk, hfin | hcont⟩
    · have hres : runFrom env i (n + 1) st =
          { st with error := some (timeoutMsg (env.clock i)) } := by
        rw [hunf, heq]
        rfl
      refine ⟨?_, ?_⟩
      · intro e he
        rw [hres] at he
        have hinj : some (timeoutMsg (env.clock i)) = some e := he
        refine ⟨i, le_refl i, by omega, hclk,
          (Option.some_injective _ hinj).symm, ?_⟩
        intro s hs
        rw [hres] at hs
        exact hsteps s hs
      · intro hn
        rw [hres] at hn
        exact absurd hn (by simp)
    · obtain ⟨a, stp, hst1, hbrk, hnb, hact, _⟩ := hfin
      have hres : runFrom env i (n + 1) st = (stepIter env i st).1 := by
        rw [hunf, if_pos hbrk]
      refine ⟨?_, ?_⟩
      · intro e he
        rw [hres, hst1] at he
        have h' : st.error = some e := he
        rw [herr] at h'
        exact Option.noConfusion h'
      · intro _ a' ha'
        rw [hres, hst1] at ha'
        have haa : a = a' := Option.some_injective _ ha'
        subst haa
        refine ⟨⟨stp, ?_, hact⟩, hnb⟩
        rw [hres, hst1]
        exact List.mem_append_right _ (List.mem_singleton.mpr rfl)
    · obtain ⟨hbrk, herr', hfa', hmem, hold⟩ := hcont
      have hres : runFrom env i (n + 1) st =
          runFrom env (i + 1) n (stepIter env i st).1 := by
        rw [hunf, if_neg (by simp [hbrk])]
      have h1 : (stepIter env i st).1.error = none := by rw [herr', herr]
      have h2 : ∀ s ∈ (stepIter env i st).1.steps,
          s.step_index < ((i + 1 : ℕ) : ℤ) := by
        intro s hs
        rcases hmem s hs with holds | hidx
        · have := hsteps s holds
          push_cast
          omega
        · rw [hidx]
          push_cast
          omega
      have h3 : ∀ a, (stepIter env i st).1.final_answer = some a →
          (∃ s ∈ (stepIter env i st).1.steps, s.action = "final") ∧
          ¬(pyStrip a = "") := by
        intro a ha
        rw [hfa'] at ha
        obtain ⟨⟨s, hsmem, hsact⟩, hnb⟩ := hgf a ha
        exact ⟨⟨s, hold s hsmem, hsact⟩, hnb⟩
      obtain ⟨c1, c2⟩ := ih (i + 1) (stepIter env i st).1 h1 h2 h3
      rw [hres]
      refine ⟨?_, c2⟩
      intro e he
      obtain ⟨k, hk0, hk1, hk2, hk3, hk4⟩ := c1 e he
      exact ⟨k, by omega, by omega, hk2, hk3, hk4⟩

/-- C1: a run's response has `ok = false` and a non-null `error` exactly when
the per-iteration timeout check fired: `ok` is true iff `error` is null; any
error is the timeout message of an iteration whose clock reading exceeded
`timeout_ms`, with no step recorded at or after that iteration; and every
errorless termination has `ok = true` with the synthesized default answer
whenever no `final` step was produced — the answer is never empty when no
timeout occurred. -/
theorem loop_timeout_only_fatal (env : LoopEnv) :
    ((IterativeAgentLoopV2.run env).ok = true ↔
      (IterativeAgentLoopV2.run env).error = none) ∧
    (∀ e, (IterativeAgentLoopV2.run env).error = some e →
      ∃ k, k < (clamp_iterations env.req.max_iterations env.policy).toNat ∧
        env.req.timeout_ms < env.clock k ∧ e = timeoutMsg (env.clock k) ∧
        ∀ s ∈ (IterativeAgentLoopV2.run env).steps, s.step_index < (k : ℤ)) ∧
    ((IterativeAgentLoopV2.run env).error = none →
      (IterativeAgentLoopV2.run env).ok = true ∧
      ((¬∃ s ∈ (IterativeAgentLoopV2.run env).steps, s.action = "final") →
        (IterativeAgentLoopV2.run env).answer = defaultAnswer) ∧
      ¬((IterativeAgentLoopV2.run env).answer = "")) := by
  have hbase := runFrom_error_final env
    (clamp_iterations env.req.max_iterations env.policy).toNat 0 {}
    rfl (by intro s hs; cases hs) (by intro a ha; cases ha)
  obtain ⟨c1, c2⟩ := hbase
  have hok : (IterativeAgentLoopV2.run env).ok =
      (runFrom env 0 (clamp_iterations env.req.max_iterations env.policy).toNat
        {}).error.isNone := rfl
  have herr : (IterativeAgentLoopV2.run env).error =
      (runFrom env 0 (clamp_iterations env.req.max_iterations env.policy).toNat
        {}).error := rfl
  have hsteps : (IterativeAgentLoopV2.run env).steps =
      (runFrom env 0 (clamp_iterations env.req.max_iterations env.policy).toNat
        {}).steps := rfl
  have hans : (IterativeAgentLoopV2.run env).answer =
      strOrEmpty
        (if (runFrom env 0
              (clamp_iterations env.req.max_iterations env.policy).toNat
              {}).final_answer = none ∧
            (runFrom env 0
              (clamp_iterations env.req.max_iterations env.policy).toNat
              {}).error = none
         then some defaultAnswer
         else (runFrom env 0
                (clamp_iterations env.req.max_iterations env.policy).toNat
                {}).final_answer) := rfl
  refine ⟨?_, ?_, ?_⟩
  · rw [hok, herr]
    exact Option.isNone_iff_eq_none
  · intro e he
    rw [herr] at he
    obtain ⟨k, _, hk1, hk2, hk3, hk4⟩ := c1 e he
    refine ⟨k, by omega, hk2, hk3, ?_⟩
    rw [hsteps]
    exact hk4
  · intro hne
    rw [herr] at hne
    refine ⟨by rw [hok, hne]; rfl, ?_, ?_⟩
    · intro hnofinal
      by_cases hfa : (runFrom env 0
          (clamp_iterations env.req.max_iterations env.policy).toNat
          {}).final_answer = none
      · rw [hans, if_pos ⟨hfa, hne⟩]
        rfl
      · obtain ⟨a, ha⟩ := Option.ne_none_iff_exists'.mp hfa
        obtain ⟨⟨s, hsmem, hsact⟩, _⟩ := c2 hne a ha
        refine absurd ⟨s, ?_, hsact⟩ hnofinal
        rw [hsteps]
        exact hsmem
    · by_cases hfa : (runFrom env 0
          (clamp_iterations env.req.max_iterations env.policy).toNat
          {}).final_answer = none
      · rw [hans, if_pos ⟨hfa, hne⟩]
        decide
      · obtain ⟨a, ha⟩ := Option.ne_none_iff_exists'.mp hfa
        obtain ⟨_, hnb⟩ := c2 hne a ha
        have hne' : ¬((runFrom env 0
            (clamp_iterations env.req.max_iterations env.policy).toNat
            {}).final_answer = none ∧
            (runFrom env 0
              (clamp_iterations env.req.max_iterations env.policy).toNat
              {}).error = none) := by
          intro hc
          rw [ha] at hc
          exact Option.noConfusion hc.1
        rw [hans, if_neg hne', ha]
        intro h
        apply hnb
        rw [show strOrEmpty (some a) = a from rfl] at h
        rw [h]
        rfl

/-- C1 (witness): the reflect-only environment exhausts its budget with no
timeout: `ok = true` and the synthesized default answer. -/
theorem loop_timeout_only_fatal_witness :
    (IterativeAgentLoopV2.run envExhaust).answer = defaultAnswer ∧
    (IterativeAgentLoopV2.run envExhaust).ok = true := by
  have h := loop_timeout_only_fatal envExhaust
  have herr : (IterativeAgentLoopV2.run envExhaust).error = none := by decide
  have hnof : ¬∃ s ∈ (IterativeAgentLoopV2.run envExhaust).steps,
      s.action = "final" := by decide
  exact ⟨(h.2.2 herr).2.1 hnof, (h.2.2 herr).1⟩

/-- Shape of one loop iteration when no timeout fires, the arbitrated action
is `tool` (tools allowed), the stripped capability name is `t`, and the
execution fails: the body continues, appends a `tool` step and then either a
`retry` step (when `can_retry` grants) or a budget-exhausted `reflect` step,
and mutates the retry state exactly by the granted `mark_retry`. -/
theorem stepIter_toolfail (env : LoopEnv) (i : ℕ) (st : LoopState) (t : String)
    (hclk : env.clock i ≤ env.req.timeout_ms)
    (htools : env.req.allow_tools = true)
    (hact : (HybridArbiter.decide (env.planner i st.working_memory)
      env.req.allow_tools env.policy.min_confidence_to_finalize
      (hasToolResult st.working_memory)).action = "tool")
    (hnm : pyStrip (HybridArbiter.decide (env.planner i st.working_memory)
      env.req.allow_tools env.policy.min_confidence_to_finalize
      (hasToolResult st.working_memory)).function_call.rawName = t)
    (hok : (env.toolExec i t
      ((HybridArbiter.decide (env.planner i st.working_memory)
        env.req.allow_tools env.policy.min_confidence_to_finalize
        (hasToolResult st.working_memory)).function_call.argumentsOrEmpty)).ok
      = false) :
    (stepIter env i st).2 = false ∧
    (stepIter env i st).1.retry_state =
      (if st.retry_state.can_retry (some t) env.policy = true
       then st.retry_state.mark_retry (some t) else st.retry_state) ∧
    ∃ toolStep postStep,
      (stepIter env i st).1.steps = st.steps ++ [toolStep] ++ [postStep] ∧
      toolStep.action = "tool" ∧ toolStep.step_index = (i : ℤ) ∧
      postStep.step_index = (i : ℤ) ∧
      (if st.retry_state.can_retry (some t) env.policy = true
       then postStep.action = "retry"
       else postStep.action = "reflect" ∧
         ("retry_exhausted", NoteVal.vBool true) ∈ postStep.notes) := by
  unfold stepIter
  dsimp only
  rw [if_neg (not_lt.mpr hclk), hact, hnm,
    if_neg (by decide : ¬("tool" : String) = "final"),
    if_pos ⟨rfl, htools⟩, if_pos hok]
  by_cases hcr : st.retry_state.can_retry (some t) env.policy = true
  · rw [if_pos hcr]
    refine ⟨?_, ?_, ?_⟩
    · rfl
    · rw [if_pos hcr]
    · exact ⟨_, _, rfl, rfl, rfl, rfl, by rw [if_pos hcr]⟩
  · rw [if_neg hcr]
    refine ⟨?_, ?_, ?_⟩
    · rfl
    · rw [if_neg hcr]
    · exact ⟨_, _, rfl, rfl, rfl, rfl, by
        rw [if_neg hcr]
        exact ⟨rfl, by simp⟩⟩

/-- A fresh retry state grants a retry for any non-empty tool name under the
default budgets. -/
theorem can_retry_fresh (policy : AgentPolicy) (t : String) (ht : ¬(t = ""))
    (h3 : policy.retry.max_total_retries = 3)
    (h2 : policy.retry.max_retries_per_tool = 2) :
    RetryState.can_retry ⟨0, []⟩ (some t) policy = true := by
  unfold RetryState.can_retry
  rw [h3, h2]
  simp [dictGet, ht]

/-- One recorded retry for `t` still grants a second retry. -/
theorem can_retry_one (policy : AgentPolicy) (t : String) (ht : ¬(t = ""))
    (h3 : policy.retry.max_total_retries = 3)
    (h2 : policy.retry.max_retries_per_tool = 2) :
    RetryState.can_retry ⟨1, [(t, 1)]⟩ (some t) policy = true := by
  unfold RetryState.can_retry
  rw [h3, h2]
  simp [dictGet, ht]

/-- Two recorded retries for `t` exhaust the per-tool budget. -/
theorem can_retry_two (policy : AgentPolicy) (t : String) (ht : ¬(t = ""))
    (h3 : policy.retry.max_total_retries = 3)
    (h2 : policy.retry.max_retries_per_tool = 2) :
    RetryState.can_retry ⟨2, [(t, 2)]⟩ (some t) policy = false := by
  unfold RetryState.can_retry
  rw [h3, h2]
  simp [dictGet, ht]

/-- Marking the first retry of `t` on a fresh state. -/
theorem mark_retry_fresh (t : String) (ht : ¬(t = "")) :
    RetryState.mark_retry ⟨0, []⟩ (some t) = ⟨1, [(t, 1)]⟩ := by
  unfold RetryState.mark_retry
  dsimp only
  rw [if_neg ht]
  simp [dictGet, dictSet]

/-- Marking the second retry of `t`. -/
theorem mark_retry_one (t : String) (ht : ¬(t = "")) :
    RetryState.mark_retry ⟨1, [(t, 1)]⟩ (some t) = ⟨2, [(t, 2)]⟩ := by
  unfold RetryState.mark_retry
  dsimp only
  rw [if_neg ht]
  simp [dictGet, dictSet]

/-- Once the per-tool budget for `t` is exhausted (`⟨2, [(t, 2)]⟩` under the
default budgets), continuing a run whose every iteration is a failing `t`
invocation appends no further `retry` step and preserves all recorded steps. -/
theorem runFrom_toolfail_steady (env : LoopEnv) (t : String)
    (htools : env.req.allow_tools = true)
    (hpol2 : env.policy.retry.max_retries_per_tool = 2)
    (hpol3 : env.policy.retry.max_total_retries = 3)
    (ht : ¬(t = ""))
    (hclock : ∀ i, env.clock i ≤ env.req.timeout_ms)
    (hplan : ∀ (i : ℕ) (wm : List WMEntry),
      (HybridArbiter.decide (env.planner i wm) env.req.allow_tools
        env.policy.min_confidence_to_finalize (hasToolResult wm)).action
        = "tool" ∧
      pyStrip (HybridArbiter.decide (env.planner i wm) env.req.allow_tools
        env.policy.min_confidence_to_finalize
        (hasToolResult wm)).function_call.rawName = t)
    (hfail : ∀ (i : ℕ) (a : List (String × String)),
      (env.toolExec i t a).ok = false) :
    ∀ (n i : ℕ) (st : LoopState),
      st.retry_state = ⟨2, [(t, 2)]⟩ →
      ((runFrom env i n st).steps.filter (fun s => s.action == "retry") =
        st.steps.filter (fun s => s.action == "retry")) ∧
      (∀ s ∈ st.steps, s ∈ (runFrom env i n st).steps) := by
  intro n
  induction n with
  | zero =>
    intro i st _
    exact ⟨rfl, fun s hs => hs⟩
  | succ n ih =>
    intro i st hrs
    obtain ⟨hp1, hp2⟩ := hplan i st.working_memory
    obtain ⟨hbrk, hrsEq, A, P, hsteps', hAact, _, _, hpost⟩ :=
      stepIter_toolfail env i st t (hclock i) htools hp1 hp2 (hfail i _)
    have hcrn : ¬(st.retry_state.can_retry (some t) env.policy = true) := by
      rw [hrs, can_retry_two env.policy t ht hpol3 hpol2]
      simp
    rw [if_neg hcrn] at hrsEq hpost
    obtain ⟨hPact, _⟩ := hpost
    have hrs' : (stepIter env i st).1.retry_state = ⟨2, [(t, 2)]⟩ := by
      rw [hrsEq, hrs]
    have hrun : runFrom env i (n + 1) st =
        runFrom env (i + 1) n (stepIter env i st).1 := by
      rw [show runFrom env i (n + 1) st =
          (if (stepIter env i st).2 = true then (stepIter env i st).1
           else runFrom env (i + 1) n (stepIter env i st).1) from rfl,
        if_neg (by simp [hbrk])]
    obtain ⟨ih1, ih2⟩ := ih (i + 1) (stepIter env i st).1 hrs'
    rw [hrun]
    have hfA : (A.action == "retry") = false := by rw [hAact]; rfl
    have hfP : (P.action == "retry") = false := by rw [hPact]; rfl
    constructor
    · rw [ih1, hsteps']
      simp [List.filter_append, List.filter_cons, hfA, hfP]
    · intro s hs
      apply ih2
      rw [hsteps']
      exact List.mem_append_left _ (List.mem_append_left _ hs)

/-- C3: in a run whose arbitrated action is `tool` for the same capability `t`
on every iteration and whose every execution of `t` fails, under
`max_retries_per_tool = 2` and `max_total_retries = 3` (with tools allowed,
no timeout, and a clamped budget of at least 3 iterations), exactly 2 `retry`
steps are appended (both before iteration 2), and the 3rd failure at
iteration 2 appends a `reflect` step with `notes.retry_exhausted = true`
instead of a retry step. -/
theorem loop_retry_exhaustion (env : LoopEnv) (t : String)
    (htools : env.req.allow_tools = true)
    (hpol2 : env.policy.retry.max_retries_per_tool = 2)
    (hpol3 : env.policy.retry.max_total_retries = 3)
    (hclock : ∀ i, env.clock i ≤ env.req.timeout_ms)
    (hplan : ∀ (i : ℕ) (wm : List WMEntry),
      (HybridArbiter.decide (env.planner i wm) env.req.allow_tools
        env.policy.min_confidence_to_finalize (hasToolResult wm)).action
        = "tool" ∧
      pyStrip (HybridArbiter.decide (env.planner i wm) env.req.allow_tools
        env.policy.min_confidence_to_finalize
        (hasToolResult wm)).function_call.rawName = t)
    (hfail : ∀ (i : ℕ) (a : List (String × String)),
      (env.toolExec i t a).ok = false)
    (hiters : 3 ≤ (clamp_iterations env.req.max_iterations env.policy).toNat) :
    (((IterativeAgentLoopV2.run env).steps.filter
        (fun s => s.action == "retry")).length = 2) ∧
    (∀ s ∈ (IterativeAgentLoopV2.run env).steps,
      s.action = "retry" → s.step_index < 2) ∧
    (∃ s ∈ (IterativeAgentLoopV2.run env).steps, s.step_index = 2 ∧
      s.action = "reflect" ∧
      ("retry_exhausted", NoteVal.vBool true) ∈ s.notes) := by
  have ht : ¬(t = "") := by
    obtain ⟨ha, hn⟩ := hplan 0 ([] : List WMEntry)
    have hv := decide_tool_fc_valid _ _ _ _ ha
    have hnb := hasValidName_nonblank _ hv
    rw [hn] at hnb
    exact hnb
  obtain ⟨k, hk⟩ : ∃ k,
      (clamp_iterations env.req.max_iterations env.policy).toNat = k + 3 :=
    ⟨(clamp_iterations env.req.max_iterations env.policy).toNat - 3, by omega⟩
  obtain ⟨hp01, hp02⟩ := hplan 0 (({} : LoopState)).working_memory
  obtain ⟨hbrk0, hrs0, A0, P0, hst0, hA0a, hA0i, hP0i, hpost0⟩ :=
    stepIter_toolfail env 0 {} t (hclock 0) htools hp01 hp02 (hfail 0 _)
  have hcr0 : (({} : LoopState)).retry_state.can_retry (some t) env.policy
      = true := can_retry_fresh env.policy t ht hpol3 hpol2
  rw [if_pos hcr0] at hrs0 hpost0
  have hrs0' : (stepIter env 0 ({} : LoopState)).1.retry_state
      = ⟨1, [(t, 1)]⟩ := by
    rw [hrs0]
    exact mark_retry_fresh t ht
  set st1 := (stepIter env 0 ({} : LoopState)).1 with hst1def
  obtain ⟨hp11, hp12⟩ := hplan 1 st1.working_memory
  obtain ⟨hbrk1, hrs1, A1, P1, hst1s, hA1a, hA1i, hP1i, hpost1⟩ :=
    stepIter_toolfail env 1 st1 t (hclock 1) htools hp11 hp12 (hfail 1 _)
  have hcr1 : st1.retry_state.can_retry (some t) env.policy = true := by
    rw [hrs0']
    exact can_retry_one env.policy t ht hpol3 hpol2
  rw [if_pos hcr1] at hrs1 hpost1
  have hrs1' : (stepIter env 1 st1).1.retry_state = ⟨2, [(t, 2)]⟩ := by
    rw [hrs1, hrs0']
    exact mark_retry_one t ht
  set st2 := (stepIter env 1 st1).1 with hst2def
  obtain ⟨hp21, hp22⟩ := hplan 2 st2.working_memory
  obtain ⟨hbrk2, hrs2, A2, P2, hst2s, hA2a, hA2i, hP2i, hpost2⟩ :=
    stepIter_toolfail env 2 st2 t (hclock 2) htools hp21 hp22 (hfail 2 _)
  have hcr2n : ¬(st2.retry_state.can_retry (some t) env.policy = true) := by
    rw [hrs1', can_retry_two env.policy t ht hpol3 hpol2]
    simp
  rw [if_neg hcr2n] at hrs2 hpost2
  obtain ⟨hP2act, hP2note⟩ := hpost2
  have hrs2' : (stepIter env 2 st2).1.retry_state = ⟨2, [(t, 2)]⟩ := by
    rw [hrs2, hrs1']
  set st3 := (stepIter env 2 st2).1 with hst3def
  have hrun : runFrom env 0 (k + 3) ({} : LoopState) = runFrom env 3 k st3 := by
    rw [show runFrom env 0 (k + 3) ({} : LoopState) =
        (if (stepIter env 0 ({} : LoopState)).2 = true
         then (stepIter env 0 ({} : LoopState)).1
         else runFrom env 1 (k + 2) (stepIter env 0 ({} : LoopState)).1)
        from rfl,
      if_neg (by simp [hbrk0])]
    rw [show runFrom env 1 (k + 2) st1 =
        (if (stepIter env 1 st1).2 = true then (stepIter env 1 st1).1
         else runFrom env 2 (k + 1) (stepIter env 1 st1).1) from rfl,
      if_neg (by simp [hbrk1])]
    rw [show runFrom env 2 (k + 1) st2 =
        (if (stepIter env 2 st2).2 = true then (stepIter env 2 st2).1
         else runFrom env 3 k (stepIter env 2 st2).1) from rfl,
      if_neg (by simp [hbrk2])]
  obtain ⟨hfiltEq, hsub⟩ := runFrom_toolfail_steady env t htools hpol2 hpol3
    ht hclock hplan hfail k 3 st3 hrs2'
  have hfA0 : (A0.action == "retry") = false := by rw [hA0a]; rfl
  have hfA1 : (A1.action == "retry") = false := by rw [hA1a]; rfl
  have hfA2 : (A2.action == "retry") = false := by rw [hA2a]; rfl
  have hfP0 : (P0.action == "retry") = true := by rw [hpost0]; rfl
  have hfP1 : (P1.action == "retry") = true := by rw [hpost1]; rfl
  have hfP2 : (P2.action == "retry") = false := by rw [hP2act]; rfl
  have hfilt3 : st3.steps.filter (fun s => s.action == "retry") = [P0, P1] := by
    rw [hst2s, hst1s, hst0]
    simp [List.filter_append, List.filter_cons, hfA0, hfA1, hfA2, hfP0, hfP1,
      hfP2]
  have hstepsEq : (IterativeAgentLoopV2.run env).steps =
      (runFrom env 3 k st3).steps := by
    rw [show (IterativeAgentLoopV2.run env).steps =
        (runFrom env 0
          (clamp_iterations env.req.max_iterations env.policy).toNat
          ({} : LoopState)).steps from rfl,
      hk, hrun]
  refine ⟨?_, ?_, ?_⟩
  · rw [hstepsEq, hfiltEq, hfilt3]
    rfl
  · intro s hs hact
    rw [hstepsEq] at hs
    have hmemf : s ∈ (runFrom env 3 k st3).steps.filter
        (fun s => s.action == "retry") :=
      List.mem_filter.mpr ⟨hs, by rw [hact]; rfl⟩
    rw [hfiltEq, hfilt3] at hmemf
    simp only [List.mem_cons, List.not_mem_nil, or_false] at hmemf
    rcases hmemf with rfl | rfl
    · rw [hP0i]
      omega
    · rw [hP1i]
      omega
  · refine ⟨P2, ?_, ?_, hP2act, hP2note⟩
    · rw [hstepsEq]
      apply hsub
      rw [hst2s]
      exact List.mem_append_right _ (List.mem_singleton.mpr rfl)
    · rw [hP2i]
      omega

/-- C3 (witness): the theorem applied to the concrete environment whose
planner always proposes the failing tool `now` under the default policy. -/
theorem loop_retry_exhaustion_witness :
    ((IterativeAgentLoopV2.run envRetryFail).steps.filter
      (fun s => s.action == "retry")).length = 2 :=
  (loop_retry_exhaustion envRetryFail "now" rfl rfl rfl
    (by intro i; show (0 : ℤ) ≤ 20000; decide)
    (fun i wm => ⟨rfl, rfl⟩) (fun i a => rfl)
    (by decide)).1

end CognitiveOS
